import Mathlib

/-!
Verification development for the RustTodoApp repository (src/main.rs).

The application state and its operations are shallowly embedded:
`f32` scalar values of the source are modelled as rationals (ℚ); `usize`
counters as `Nat`; Rust `String` as Lean `String` (with `String.trim`
modelling `str::trim`); `Vec<T>` as `List T`; `HashMap<usize, String>` as
an association list; `egui::Pos2`, `egui::Vec2`, `egui::Rect` and
`egui::Color32` as the record types below.  serde serialization is
modelled by record types holding exactly the non-`#[serde(skip)]` fields,
with `toSaved` / `fromSaved` translating to and from the in-memory state
(`#[serde(skip)]` fields are restored to their `Default` values on load,
as serde does).
-/

namespace TodoMain

/-- Model of `egui::Pos2` (two `f32` coordinates, modelled as ℚ). -/
structure Pos2 where
  x : ℚ
  y : ℚ
deriving DecidableEq

/-- Model of `egui::Vec2` (two `f32` components, modelled as ℚ). -/
structure Vec2 where
  x : ℚ
  y : ℚ
deriving DecidableEq

/-- Addition `Pos2 + Vec2` (egui's `Add<Vec2> for Pos2`). -/
def Pos2.addVec (p : Pos2) (v : Vec2) : Pos2 :=
  { x := p.x + v.x, y := p.y + v.y }

/-- Addition `Vec2 + Vec2` (componentwise). -/
def Vec2.add (a b : Vec2) : Vec2 :=
  { x := a.x + b.x, y := a.y + b.y }

/-- Model of `egui::Vec2::max`: componentwise maximum. -/
def Vec2.vmax (a b : Vec2) : Vec2 :=
  { x := max a.x b.x, y := max a.y b.y }

/-- Model of `egui::Rect`, stored as its `min` and `max` corners. -/
structure Rect where
  min : Pos2
  max : Pos2
deriving DecidableEq

/-- Model of `egui::Rect::from_min_size(p, s)`: min is `p`, max is `p + s`. -/
def Rect.from_min_size (p : Pos2) (s : Vec2) : Rect :=
  { min := p, max := p.addVec s }

/-- Model of `egui::Rect::translate(d)`: moves both corners by `d`. -/
def Rect.translate (r : Rect) (d : Vec2) : Rect :=
  { min := r.min.addVec d, max := r.max.addVec d }

/-- Model of `egui::Color32` (four `u8` channels). -/
structure Color32 where
  r : Nat
  g : Nat
  b : Nat
  a : Nat
deriving DecidableEq

/-- Model of `egui::Color32::WHITE`. -/
def Color32.WHITE : Color32 := { r := 255, g := 255, b := 255, a := 255 }

/-- The `BulletStyle` enum of src/main.rs lines 8-15. -/
inductive BulletStyle where
  | None
  | Circle
  | Square
  | Dash
  | Numbered (n : Nat)
deriving DecidableEq

/-- Whether a bullet style is `Numbered(_)` (the `matches!` test of the source). -/
def BulletStyle.isNumbered : BulletStyle → Bool
  | .Numbered _ => true
  | _ => false

/-- The `TextLine` struct of src/main.rs lines 17-22. -/
structure TextLine where
  text : String
  bullet_style : BulletStyle
  bullet_color : Color32
deriving DecidableEq

/-- The `TextBox` struct of src/main.rs lines 24-36.
`is_dragging` is marked `#[serde(skip)]` in the source. -/
structure TextBox where
  id : Nat
  title : String
  position : Pos2
  size : Vec2
  lines : List TextLine
  font_size : ℚ
  text_color : Color32
  min_size : Vec2
  is_dragging : Bool
deriving DecidableEq

/-- The `NotesCanvas` struct of src/main.rs lines 38-43. -/
structure NotesCanvas where
  text_boxes : List TextBox
  next_textbox_id : Nat
  scene_rect : Rect
deriving DecidableEq

/-- Source `impl Default for NotesCanvas` (src/main.rs lines 45-56). -/
def NotesCanvas.default : NotesCanvas :=
  { text_boxes := []
    next_textbox_id := 1
    scene_rect := Rect.from_min_size { x := 0, y := 0 } { x := 5000, y := 5000 } }

/-- The `Task` struct of src/main.rs lines 59-64. -/
structure Task where
  id : Nat
  text : String
  completed : Bool
deriving DecidableEq

/-- The `Project` struct of src/main.rs lines 66-72. -/
structure Project where
  id : Nat
  name : String
  tasks : List Task
  expanded : Bool
deriving DecidableEq

/-- The `TodoApp` struct of src/main.rs lines 74-111.  The fields between
`next_task_id` and `notes_canvas`, as well as the fields after
`notes_canvas`, are all marked `#[serde(skip)]` in the source.
`HashMap<usize, String>` is modelled as an association list. -/
structure TodoApp where
  projects : List Project
  next_project_id : Nat
  next_task_id : Nat
  new_project_name : String
  editing_project : Option Nat
  editing_task : Option (Nat × Nat)
  new_task_texts : List (Nat × String)
  edit_project_text : String
  edit_task_text : String
  adding_task_to_project : Option Nat
  right_click_task_text : List (Nat × String)
  notes_canvas : NotesCanvas
  show_notes : Bool
  context_menu_pos : Option Pos2
  editing_textbox : Option Nat
  editing_line_idx : Option Nat
  temp_edit_text : String
  editing_title : Option Nat
  temp_title_text : String
deriving DecidableEq

/-- Source `impl Default for TodoApp` (src/main.rs lines 113-137). -/
def TodoApp.default : TodoApp :=
  { projects := []
    next_project_id := 1
    next_task_id := 1
    new_project_name := ""
    editing_project := none
    editing_task := none
    new_task_texts := []
    edit_project_text := ""
    edit_task_text := ""
    adding_task_to_project := none
    right_click_task_text := []
    notes_canvas := NotesCanvas.default
    show_notes := false
    context_menu_pos := none
    editing_textbox := none
    editing_line_idx := none
    temp_edit_text := ""
    editing_title := none
    temp_title_text := "" }

/-- The serialized form of `TextBox`: every field except the
`#[serde(skip)]` field `is_dragging`. -/
structure SavedTextBox where
  id : Nat
  title : String
  position : Pos2
  size : Vec2
  lines : List TextLine
  font_size : ℚ
  text_color : Color32
  min_size : Vec2
deriving DecidableEq

/-- Serializing a `TextBox` writes every non-skip field. -/
def TextBox.toSaved (tb : TextBox) : SavedTextBox :=
  { id := tb.id, title := tb.title, position := tb.position, size := tb.size
    lines := tb.lines, font_size := tb.font_size, text_color := tb.text_color
    min_size := tb.min_size }

/-- Deserializing a `TextBox` reads every non-skip field and restores the
skipped `is_dragging` to `bool::default()`, i.e. `false`. -/
def SavedTextBox.load (s : SavedTextBox) : TextBox :=
  { id := s.id, title := s.title, position := s.position, size := s.size
    lines := s.lines, font_size := s.font_size, text_color := s.text_color
    min_size := s.min_size, is_dragging := false }

/-- The serialized form of `NotesCanvas` (no skip fields, but its text
boxes are serialized as `SavedTextBox`). -/
structure SavedNotesCanvas where
  text_boxes : List SavedTextBox
  next_textbox_id : Nat
  scene_rect : Rect
deriving DecidableEq

def NotesCanvas.toSaved (c : NotesCanvas) : SavedNotesCanvas :=
  { text_boxes := c.text_boxes.map TextBox.toSaved
    next_textbox_id := c.next_textbox_id
    scene_rect := c.scene_rect }

def SavedNotesCanvas.load (c : SavedNotesCanvas) : NotesCanvas :=
  { text_boxes := c.text_boxes.map SavedTextBox.load
    next_textbox_id := c.next_textbox_id
    scene_rect := c.scene_rect }

/-- The serialized form of `TodoApp`: exactly the non-`#[serde(skip)]`
fields `projects`, `next_project_id`, `next_task_id`, `notes_canvas`. -/
structure SavedTodoApp where
  projects : List Project
  next_project_id : Nat
  next_task_id : Nat
  notes_canvas : SavedNotesCanvas
deriving DecidableEq

/-- Source `TodoApp::save` (src/main.rs lines 150-152): `set_value` serializes
`self` under the key `"todo_app_data"`.  The stored value is the
serialized record. -/
def TodoApp.save (s : TodoApp) : SavedTodoApp :=
  { projects := s.projects
    next_project_id := s.next_project_id
    next_task_id := s.next_task_id
    notes_canvas := s.notes_canvas.toSaved }

/-- Deserializing a `TodoApp`: non-skip fields are read back, every
`#[serde(skip)]` field is restored to its type's `Default` value. -/
def SavedTodoApp.load (s : SavedTodoApp) : TodoApp :=
  { projects := s.projects
    next_project_id := s.next_project_id
    next_task_id := s.next_task_id
    new_project_name := ""
    editing_project := none
    editing_task := none
    new_task_texts := []
    edit_project_text := ""
    edit_task_text := ""
    adding_task_to_project := none
    right_click_task_text := []
    notes_canvas := s.notes_canvas.load
    show_notes := false
    context_menu_pos := none
    editing_textbox := none
    editing_line_idx := none
    temp_edit_text := ""
    editing_title := none
    temp_title_text := "" }

/-- Source `TodoApp::new` (src/main.rs lines 140-147).  The outer `Option` models
whether `cc.storage` is present; the inner `Option` models the result of
`eframe::get_value(storage, "todo_app_data")`, which is `None` when no
value is stored under the key or when deserialization fails.
`unwrap_or_default()` falls back to `TodoApp::default()`. -/
def TodoApp.new (storage : Option (Option SavedTodoApp)) : TodoApp :=
  match storage with
  | some stored =>
    match stored with
    | some data => data.load
    | none => TodoApp.default
  | none => TodoApp.default

/-- Replace the element at an index, leaving the list unchanged when the
index is out of range (models in-place mutation through an index or a
`get_mut` that returned `Some`). -/
def listModify (f : α → α) : Nat → List α → List α
  | _, [] => []
  | 0, a :: as => f a :: as
  | n + 1, a :: as => a :: listModify f n as

/-- Apply `f` to the first element satisfying `p`, leaving the rest
unchanged (models `iter_mut().find(p)` followed by a mutation). -/
def modifyFirst (p : α → Bool) (f : α → α) : List α → List α
  | [] => []
  | a :: as => if p a then f a :: as else a :: modifyFirst p f as

/-- Source `TodoApp::add_project` (src/main.rs lines 1205-1217): if the pending
project name is not whitespace-only, push a new expanded project carrying
the (untrimmed) name and the current `next_project_id`, increment the
counter and clear the input field. -/
def add_project (s : TodoApp) : TodoApp :=
  if s.new_project_name.trim = "" then s
  else
    { s with
      projects := s.projects ++
        [{ id := s.next_project_id, name := s.new_project_name
           tasks := [], expanded := true }]
      next_project_id := s.next_project_id + 1
      new_project_name := "" }

/-- Source `TodoApp::add_task_to_project` (src/main.rs lines 1219-1231): if a
project with the given id exists and the text is not whitespace-only,
push a task with the trimmed text, `completed = false` and the current
`next_task_id` onto the first such project, and increment the counter. -/
def add_task_to_project (s : TodoApp) (project_id : Nat) (task_text : String) :
    TodoApp :=
  if s.projects.any (fun p => p.id == project_id) then
    if task_text.trim = "" then s
    else
      { s with
        projects := modifyFirst (fun p => p.id == project_id)
          (fun p =>
            { p with tasks := p.tasks ++
                [{ id := s.next_task_id, text := task_text.trim
                   completed := false }] })
          s.projects
        next_task_id := s.next_task_id + 1 }
  else s

/-- Project removal (src/main.rs lines 591-596): remove the project at the
given index and drop its `new_task_texts` entry. -/
def remove_project (s : TodoApp) (idx : Nat) : TodoApp :=
  match s.projects[idx]? with
  | some p =>
    { s with
      projects := s.projects.eraseIdx idx
      new_task_texts := s.new_task_texts.filter (fun kv => ¬(kv.1 == p.id)) }
  | none => s

/-- Task removal (src/main.rs lines 507-510): remove the task at index
`tidx` of the project at index `pidx`. -/
def remove_task (s : TodoApp) (pidx tidx : Nat) : TodoApp :=
  { s with
    projects := listModify
      (fun p => { p with tasks := p.tasks.eraseIdx tidx }) pidx s.projects }

/-- The completion checkbox (src/main.rs line 389) writes the checkbox
state into `task.completed`. -/
def set_task_completed (s : TodoApp) (pidx tidx : Nat) (b : Bool) : TodoApp :=
  { s with
    projects := listModify
      (fun p =>
        { p with tasks := listModify (fun t => { t with completed := b }) tidx p.tasks })
      pidx s.projects }

/-- Committing a project rename (src/main.rs lines 299-301 / 317-320):
the name is overwritten only when the edit text is not whitespace-only. -/
def rename_project (s : TodoApp) (project_id : Nat) (txt : String) : TodoApp :=
  { s with
    projects := modifyFirst (fun p => p.id == project_id)
      (fun p => if txt.trim = "" then p else { p with name := txt })
      s.projects }

/-- Committing a task rename (src/main.rs lines 404-411 / 435-442). -/
def rename_task (s : TodoApp) (project_id task_id : Nat) (txt : String) : TodoApp :=
  { s with
    projects := modifyFirst (fun p => p.id == project_id)
      (fun p =>
        { p with
          tasks := modifyFirst (fun t => t.id == task_id)
            (fun t => if txt.trim = "" then t else { t with text := txt })
            p.tasks })
      s.projects }

/-- Source `TodoApp::create_text_box_at` (src/main.rs lines 1015-1034). -/
def create_text_box_at (s : TodoApp) (pos : Pos2) : TodoApp :=
  { s with
    notes_canvas :=
      { s.notes_canvas with
        text_boxes := s.notes_canvas.text_boxes ++
          [{ id := s.notes_canvas.next_textbox_id
             title := "Note " ++ toString s.notes_canvas.next_textbox_id
             position := pos
             size := { x := 400, y := 250 }
             lines := [{ text := "", bullet_style := .None
                         bullet_color := Color32.WHITE }]
             font_size := 16
             text_color := Color32.WHITE
             min_size := { x := 150, y := 80 }
             is_dragging := false }]
        next_textbox_id := s.notes_canvas.next_textbox_id + 1 } }

/-- The `"delete"` action of `render_text_boxes` (src/main.rs lines
901-905): retain every box whose id differs. -/
def delete_text_box (s : TodoApp) (textbox_id : Nat) : TodoApp :=
  { s with
    notes_canvas :=
      { s.notes_canvas with
        text_boxes := s.notes_canvas.text_boxes.filter
          (fun tb => ¬(tb.id == textbox_id)) } }

/-- The `"add_line"` action (src/main.rs lines 937-946): push an empty,
unbulleted, white line onto the box with the given id. -/
def add_line (s : TodoApp) (textbox_id : Nat) : TodoApp :=
  { s with
    notes_canvas :=
      { s.notes_canvas with
        text_boxes := modifyFirst (fun tb => tb.id == textbox_id)
          (fun tb =>
            { tb with lines := tb.lines ++
                [{ text := "", bullet_style := .None
                   bullet_color := Color32.WHITE }] })
          s.notes_canvas.text_boxes } }

/-- The `"delete_line"` action (src/main.rs lines 947-954): remove the line
at `line_idx` only when the box has strictly more than one line. -/
def delete_line (s : TodoApp) (textbox_id line_idx : Nat) : TodoApp :=
  { s with
    notes_canvas :=
      { s.notes_canvas with
        text_boxes := modifyFirst (fun tb => tb.id == textbox_id)
          (fun tb =>
            if 1 < tb.lines.length then { tb with lines := tb.lines.eraseIdx line_idx }
            else tb)
          s.notes_canvas.text_boxes } }

/-- Saving the line-edit dialog (src/main.rs lines 1059-1069): overwrite
the text of line `line_idx` of the box with the given id, then clear the
editing state. -/
def save_line_text (s : TodoApp) (textbox_id line_idx : Nat) (txt : String) :
    TodoApp :=
  { s with
    notes_canvas :=
      { s.notes_canvas with
        text_boxes := modifyFirst (fun tb => tb.id == textbox_id)
          (fun tb =>
            { tb with
              lines := listModify (fun l => { l with text := txt })
                line_idx tb.lines })
          s.notes_canvas.text_boxes }
    editing_textbox := none
    editing_line_idx := none
    temp_edit_text := "" }

/-- Committing the formatting dialog (src/main.rs lines 1148-1156): write
the chosen bullet style and color into line `line_idx`, and the chosen
font size and text color into the box. -/
def format_line (s : TodoApp) (textbox_id line_idx : Nat)
    (style : BulletStyle) (bcolor : Color32) (fsize : ℚ) (tcolor : Color32) :
    TodoApp :=
  { s with
    notes_canvas :=
      { s.notes_canvas with
        text_boxes := modifyFirst (fun tb => tb.id == textbox_id)
          (fun tb =>
            { tb with
              lines := listModify
                (fun l => { l with bullet_style := style, bullet_color := bcolor })
                line_idx tb.lines
              font_size := fsize
              text_color := tcolor })
          s.notes_canvas.text_boxes } }

/-- The `"save_title"` action (src/main.rs lines 913-922): the title is
overwritten only when the pending text is not whitespace-only; the editing
state is cleared either way. -/
def save_title (s : TodoApp) (textbox_id : Nat) (txt : String) : TodoApp :=
  { s with
    notes_canvas :=
      { s.notes_canvas with
        text_boxes := modifyFirst (fun tb => tb.id == textbox_id)
          (fun tb => if txt.trim = "" then tb else { tb with title := txt })
          s.notes_canvas.text_boxes }
    editing_title := none
    temp_title_text := "" }

/-- Dragging a box (src/main.rs lines 855-862): the drag delta is added to
the canvas position of the box at the given index. -/
def move_text_box (s : TodoApp) (idx : Nat) (delta : Vec2) : TodoApp :=
  { s with
    notes_canvas :=
      { s.notes_canvas with
        text_boxes := listModify
          (fun tb => { tb with position := tb.position.addVec delta })
          idx s.notes_canvas.text_boxes } }

/-- A resize drag (src/main.rs lines 882-886): `size += delta` followed by
`size = size.max(min_size)` on the box at the given index. -/
def resize_text_box (s : TodoApp) (idx : Nat) (delta : Vec2) : TodoApp :=
  { s with
    notes_canvas :=
      { s.notes_canvas with
        text_boxes := listModify
          (fun tb => { tb with size := (tb.size.add delta).vmax tb.min_size })
          idx s.notes_canvas.text_boxes } }

/-- A middle-button pan (src/main.rs lines 607-609):
`scene_rect = scene_rect.translate(drag_delta)`. -/
def pan_canvas (s : TodoApp) (delta : Vec2) : TodoApp :=
  { s with
    notes_canvas :=
      { s.notes_canvas with
        scene_rect := s.notes_canvas.scene_rect.translate delta } }

/-- The reset-view button (src/main.rs lines 635-640). -/
def reset_view (s : TodoApp) : TodoApp :=
  { s with
    notes_canvas :=
      { s.notes_canvas with
        scene_rect := Rect.from_min_size { x := 0, y := 0 } { x := 5000, y := 5000 } } }

/-- Source `TodoApp::calculate_numbered_position` (src/main.rs lines 1168-1176):
`num` starts at 1 and is incremented once for every line before `line_idx`
whose bullet style is `Numbered(_)`.  The source indexes `lines[i]` only
for `i < line_idx` within bounds; out-of-range reads are modelled by a
default unbulleted line. -/
def calculate_numbered_position (textbox : TextBox) (line_idx : Nat) : Nat :=
  (List.range line_idx).foldl
    (fun num i =>
      if ((textbox.lines.getD i
            { text := "", bullet_style := .None
              bullet_color := Color32.WHITE }).bullet_style).isNumbered
      then num + 1 else num)
    1

/-- The formatting dialog's Numbered choice (src/main.rs lines 1114-1117):
selecting Numbered assigns `Numbered(calculate_numbered_position(..))`. -/
def numbered_style_for (textbox : TextBox) (line_idx : Nat) : BulletStyle :=
  .Numbered (calculate_numbered_position textbox line_idx)

/-- The default unbulleted white line, as constructed by
`create_text_box_at` and the `"add_line"` action. -/
def defaultTextLine : TextLine :=
  { text := "", bullet_style := .None, bullet_color := Color32.WHITE }

/-- The user-driven state transitions of the application, as dispatched by
`update` / `render_todo_view` / `render_notes_canvas` /
`render_text_boxes` and the dialogs. -/
inductive Op where
  | addProject (name : String)
  | addTask (project_id : Nat) (txt : String)
  | removeProject (idx : Nat)
  | removeTask (pidx tidx : Nat)
  | setTaskCompleted (pidx tidx : Nat) (b : Bool)
  | renameProject (project_id : Nat) (txt : String)
  | renameTask (project_id task_id : Nat) (txt : String)
  | createTextBox (pos : Pos2)
  | deleteTextBox (textbox_id : Nat)
  | addLine (textbox_id : Nat)
  | deleteLine (textbox_id line_idx : Nat)
  | setLineText (textbox_id line_idx : Nat) (txt : String)
  | formatLine (textbox_id line_idx : Nat) (style : BulletStyle)
      (bcolor : Color32) (fsize : ℚ) (tcolor : Color32)
  | saveTitle (textbox_id : Nat) (txt : String)
  | moveBox (idx : Nat) (delta : Vec2)
  | resizeBox (idx : Nat) (delta : Vec2)
  | pan (delta : Vec2)
  | resetView

/-- Effect of one operation on the application state.  `addProject` first
types the name into the input field, then clicks Add, as in the UI. -/
def applyOp : Op → TodoApp → TodoApp
  | .addProject name, s => add_project { s with new_project_name := name }
  | .addTask pid txt, s => add_task_to_project s pid txt
  | .removeProject idx, s => remove_project s idx
  | .removeTask pidx tidx, s => remove_task s pidx tidx
  | .setTaskCompleted pidx tidx b, s => set_task_completed s pidx tidx b
  | .renameProject pid txt, s => rename_project s pid txt
  | .renameTask pid tid txt, s => rename_task s pid tid txt
  | .createTextBox pos, s => create_text_box_at s pos
  | .deleteTextBox tid, s => delete_text_box s tid
  | .addLine tid, s => add_line s tid
  | .deleteLine tid li, s => delete_line s tid li
  | .setLineText tid li txt, s => save_line_text s tid li txt
  | .formatLine tid li st bc fs tc, s => format_line s tid li st bc fs tc
  | .saveTitle tid txt, s => save_title s tid txt
  | .moveBox idx d, s => move_text_box s idx d
  | .resizeBox idx d, s => resize_text_box s idx d
  | .pan d, s => pan_canvas s d
  | .resetView, s => reset_view s

/-- States reachable from the startup default by user operations. -/
inductive Reachable : TodoApp → Prop where
  | base : Reachable TodoApp.default
  | step {s : TodoApp} (op : Op) : Reachable s → Reachable (applyOp op s)

/-- The ids of the projects, in list order. -/
def projectIds (s : TodoApp) : List Nat := s.projects.map Project.id

/-- The ids of a project's tasks, in list order. -/
def taskIdsOf (p : Project) : List Nat := p.tasks.map Task.id

/-- The ids of all tasks of all projects, in list order. -/
def allTaskIds (s : TodoApp) : List Nat := s.projects.flatMap taskIdsOf

/-- The ids of the canvas's text boxes, in list order. -/
def boxIds (c : NotesCanvas) : List Nat := c.text_boxes.map TextBox.id

/-- An id counter `n` together with the list `l` of ids it has handed
out: `n` strictly dominates every handed-out id and the ids are pairwise
distinct. -/
def IdPair (l : List Nat) (n : Nat) : Prop :=
  (∀ x ∈ l, x < n) ∧ l.Nodup

/-- ID freshness invariant (claim C5): `next_project_id` is strictly
greater than every project id, `next_task_id` strictly greater than every
task id of every project, `next_textbox_id` strictly greater than every
text box id, and the ids of each kind are pairwise distinct (task ids
across all projects). -/
def IdInv (s : TodoApp) : Prop :=
  IdPair (projectIds s) s.next_project_id ∧
  IdPair (allTaskIds s) s.next_task_id ∧
  IdPair (boxIds s.notes_canvas) s.notes_canvas.next_textbox_id

/-- Lines-nonempty invariant (claim C6): no text box has an empty lines
list. -/
def LinesNonempty (s : TodoApp) : Prop :=
  ∀ tb ∈ s.notes_canvas.text_boxes, tb.lines ≠ []

/-- Postcondition of `add_task_to_project` (claim C4): when a project with
the requested id exists and the text trims to a non-empty string, exactly
that project receives exactly one appended task — with the trimmed text,
`completed = false` and id `next_task_id` — and `next_task_id` is bumped,
every other project and every other state field being untouched; in every
other case the state is unchanged. -/
def AddTaskPost (s : TodoApp) (project_id : Nat) (task_text : String) : Prop :=
  (((¬ ∃ p ∈ s.projects, p.id = project_id) ∨ task_text.trim = "") →
      add_task_to_project s project_id task_text = s) ∧
  ((∃ p ∈ s.projects, p.id = project_id) → task_text.trim ≠ "" →
    ∃ l₁ p l₂,
      s.projects = l₁ ++ p :: l₂ ∧ p.id = project_id ∧
      (∀ q ∈ l₁, q.id ≠ project_id) ∧ (∀ q ∈ l₂, q.id ≠ project_id) ∧
      add_task_to_project s project_id task_text =
        { s with
          projects := l₁ ++
            ({ p with tasks := p.tasks ++
                [{ id := s.next_task_id, text := task_text.trim
                   completed := false }] }) :: l₂
          next_task_id := s.next_task_id + 1 })

/-- Postcondition of a resize drag (claim C7): the box at the resized
index gets size `max (old size + delta) min_size` componentwise — hence
both dimensions are at least `min_size` — and no other field of the box,
no other box, and no other part of the state changes. -/
def ResizePost (s : TodoApp) (idx : Nat) (d : Vec2)
    (h : idx < s.notes_canvas.text_boxes.length) : Prop :=
  ∃ h' : idx < (resize_text_box s idx d).notes_canvas.text_boxes.length,
    (resize_text_box s idx d).notes_canvas.text_boxes.get ⟨idx, h'⟩ =
      { s.notes_canvas.text_boxes.get ⟨idx, h⟩ with
        size := (((s.notes_canvas.text_boxes.get ⟨idx, h⟩).size.add d).vmax
          (s.notes_canvas.text_boxes.get ⟨idx, h⟩).min_size) } ∧
    ((s.notes_canvas.text_boxes.get ⟨idx, h⟩).min_size.x ≤
      ((resize_text_box s idx d).notes_canvas.text_boxes.get ⟨idx, h'⟩).size.x) ∧
    ((s.notes_canvas.text_boxes.get ⟨idx, h⟩).min_size.y ≤
      ((resize_text_box s idx d).notes_canvas.text_boxes.get ⟨idx, h'⟩).size.y) ∧
    (∀ j, ∀ hj : j < s.notes_canvas.text_boxes.length, j ≠ idx →
      ∃ hj' : j < (resize_text_box s idx d).notes_canvas.text_boxes.length,
        (resize_text_box s idx d).notes_canvas.text_boxes.get ⟨j, hj'⟩ =
          s.notes_canvas.text_boxes.get ⟨j, hj⟩) ∧
    (resize_text_box s idx d).projects = s.projects ∧
    (resize_text_box s idx d).notes_canvas.scene_rect = s.notes_canvas.scene_rect ∧
    (resize_text_box s idx d).notes_canvas.next_textbox_id =
      s.notes_canvas.next_textbox_id

/-- The screen-space frame rectangle a text box is laid out in
(src/main.rs lines 714-716): `from_min_size(position + pan_offset, size)`.
Both its width and its height come from the stored `size`. -/
def textBoxFrameRect (pan_offset : Vec2) (tb : TextBox) : Rect :=
  Rect.from_min_size (tb.position.addVec pan_offset) tb.size

/-- The resize-handle rectangle (src/main.rs lines 867-874): a 15×15
square at the bottom-right corner of the frame rectangle. -/
def resizeHandleRect (pan_offset : Vec2) (tb : TextBox) : Rect :=
  Rect.from_min_size
    { x := (textBoxFrameRect pan_offset tb).max.x - 15
      y := (textBoxFrameRect pan_offset tb).max.y - 15 }
    { x := 15, y := 15 }

/-- A concrete state whose only text box is mid-drag. -/
def dragState : TodoApp :=
  { TodoApp.default with
    notes_canvas :=
      { NotesCanvas.default with
        text_boxes :=
          [{ id := 1, title := "Note 1"
             position := { x := 10, y := 20 }
             size := { x := 400, y := 250 }
             lines := [defaultTextLine]
             font_size := 16
             text_color := Color32.WHITE
             min_size := { x := 150, y := 80 }
             is_dragging := true }]
        next_textbox_id := 2 } }

/-- A concrete state with pending (skip-marked) UI fields filled in. -/
def uiState : TodoApp :=
  { TodoApp.default with
    new_project_name := "draft"
    show_notes := true
    temp_edit_text := "pending" }

/-- A concrete state with one project and no tasks. -/
def oneProjectState : TodoApp :=
  { TodoApp.default with
    projects := [{ id := 1, name := "inbox", tasks := [], expanded := true }]
    next_project_id := 2 }

/-- A concrete state with one text box of default geometry. -/
def oneBoxState : TodoApp :=
  { TodoApp.default with
    notes_canvas :=
      { NotesCanvas.default with
        text_boxes :=
          [{ id := 1, title := "Note 1"
             position := { x := 100, y := 100 }
             size := { x := 400, y := 250 }
             lines := [defaultTextLine]
             font_size := 16
             text_color := Color32.WHITE
             min_size := { x := 150, y := 80 }
             is_dragging := false }]
        next_textbox_id := 2 } }

/-- A one-line text box with default geometry. -/
def oneLineBox : TextBox :=
  { id := 1, title := "a", position := { x := 0, y := 0 }
    size := { x := 400, y := 250 }
    lines := [defaultTextLine]
    font_size := 16, text_color := Color32.WHITE
    min_size := { x := 150, y := 80 }, is_dragging := false }

/-- The same box with three lines of content instead of one. -/
def threeLineBox : TextBox :=
  { oneLineBox with
    id := 2
    lines := [defaultTextLine, defaultTextLine, defaultTextLine] }

/-! ## Persistence (claims C1, C2, C3) -/

/-- Loading an individual saved text box restores every serialized field
and resets the skipped `is_dragging` flag to `false`. -/
theorem load_toSaved_textBox (tb : TextBox) :
    (tb.toSaved).load = { tb with is_dragging := false } := rfl

/-- C1 (counterexample): for the state `dragState`, saving under
`"todo_app_data"` and loading back does not restore `text_boxes` exactly:
the loaded box has `is_dragging = false` while the saved one had `true`,
because `is_dragging` is `#[serde(skip)]`. -/
theorem save_load_not_exact_on_dragging :
    (TodoApp.new (some (some (TodoApp.save dragState)))).notes_canvas.text_boxes ≠
      dragState.notes_canvas.text_boxes := by
  decide

/-- C1 (amended): saving the state under the storage key `"todo_app_data"`
and constructing the app from that storage restores the persisted fields:
`projects`, `next_project_id`, `next_task_id`, `next_textbox_id` and
`scene_rect` are restored exactly, and `text_boxes` is restored exactly up
to the non-persisted `is_dragging` flag, which is reset to `false` on
every box. -/
theorem save_load_roundtrip (s : TodoApp) :
    (TodoApp.new (some (some (TodoApp.save s)))).projects = s.projects ∧
    (TodoApp.new (some (some (TodoApp.save s)))).next_project_id = s.next_project_id ∧
    (TodoApp.new (some (some (TodoApp.save s)))).next_task_id = s.next_task_id ∧
    (TodoApp.new (some (some (TodoApp.save s)))).notes_canvas.next_textbox_id =
      s.notes_canvas.next_textbox_id ∧
    (TodoApp.new (some (some (TodoApp.save s)))).notes_canvas.scene_rect =
      s.notes_canvas.scene_rect ∧
    (TodoApp.new (some (some (TodoApp.save s)))).notes_canvas.text_boxes =
      s.notes_canvas.text_boxes.map (fun tb => { tb with is_dragging := false }) := by
  refine ⟨rfl, rfl, rfl, rfl, rfl, ?_⟩
  simp [TodoApp.new, TodoApp.save, SavedTodoApp.load, NotesCanvas.toSaved,
    SavedNotesCanvas.load, List.map_map, Function.comp_def, load_toSaved_textBox]

/-- C2 (counterexample): not every field of the serialized record types is
written and read back — `TodoApp.new_project_name` is `#[serde(skip)]`, so
the in-memory value `"draft"` of `uiState` is lost by a save/load cycle. -/
theorem save_load_loses_skip_fields :
    (TodoApp.new (some (some (TodoApp.save uiState)))).new_project_name ≠
      uiState.new_project_name := by
  decide

/-- C2 (amended): a save/load cycle is field-for-field on the
non-`#[serde(skip)]` fields of the serialized record types — `projects`
(with every `Project`, `Task`, `TextLine` field), `next_project_id`,
`next_task_id`, and the canvas's `text_boxes`, `next_textbox_id` and
`scene_rect` are all preserved exactly — while every `#[serde(skip)]`
field (the transient UI state of `TodoApp` and each box's `is_dragging`)
is reset to its type's default value on load. -/
theorem save_load_characterization (s : TodoApp) :
    TodoApp.new (some (some (TodoApp.save s))) =
      { projects := s.projects
        next_project_id := s.next_project_id
        next_task_id := s.next_task_id
        new_project_name := ""
        editing_project := none
        editing_task := none
        new_task_texts := []
        edit_project_text := ""
        edit_task_text := ""
        adding_task_to_project := none
        right_click_task_text := []
        notes_canvas :=
          { text_boxes := s.notes_canvas.text_boxes.map
              (fun tb => { tb with is_dragging := false })
            next_textbox_id := s.notes_canvas.next_textbox_id
            scene_rect := s.notes_canvas.scene_rect }
        show_notes := false
        context_menu_pos := none
        editing_textbox := none
        editing_line_idx := none
        temp_edit_text := ""
        editing_title := none
        temp_title_text := "" } := by
  simp [TodoApp.new, TodoApp.save, SavedTodoApp.load, NotesCanvas.toSaved,
    SavedNotesCanvas.load, List.map_map, Function.comp_def, load_toSaved_textBox]

/-- C3: with no storage, with no stored value under `"todo_app_data"`, or
when the stored value fails to deserialize, startup yields the default
state: no projects, `next_project_id = 1`, `next_task_id = 1`, an empty
canvas with `next_textbox_id = 1` and `scene_rect` the rectangle from
`(0,0)` of size `(5000,5000)`; `TodoApp.new` is total, so startup never
fails on a bad read. -/
theorem startup_defaults :
    TodoApp.new none = TodoApp.default ∧
    TodoApp.new (some none) = TodoApp.default ∧
    TodoApp.default.projects = [] ∧
    TodoApp.default.next_project_id = 1 ∧
    TodoApp.default.next_task_id = 1 ∧
    TodoApp.default.notes_canvas.text_boxes = [] ∧
    TodoApp.default.notes_canvas.next_textbox_id = 1 ∧
    TodoApp.default.notes_canvas.scene_rect =
      Rect.from_min_size { x := 0, y := 0 } { x := 5000, y := 5000 } :=
  ⟨rfl, rfl, rfl, rfl, rfl, rfl, rfl, rfl⟩

/-! ## Numbered bullets (claim C9) -/

/-- Unfolding of one loop iteration of `calculate_numbered_position`. -/
theorem calculate_numbered_position_succ (tb : TextBox) (n : Nat) :
    calculate_numbered_position tb (n + 1) =
      (if ((tb.lines.getD n defaultTextLine).bullet_style).isNumbered
       then calculate_numbered_position tb n + 1
       else calculate_numbered_position tb n) := by
  simp only [calculate_numbered_position, List.range_succ, List.foldl_append,
    List.foldl_cons, List.foldl_nil, defaultTextLine]

/-- Closed form of `calculate_numbered_position`: 1 plus the number of
`Numbered` lines strictly before the given index. -/
theorem calculate_numbered_position_eq (tb : TextBox) (k : Nat) :
    calculate_numbered_position tb k =
      1 + (tb.lines.take k).countP (fun l => (l.bullet_style).isNumbered) := by
  induction k with
  | zero => simp [calculate_numbered_position]
  | succ n ih =>
    rw [calculate_numbered_position_succ, ih, List.take_succ, List.countP_append,
      List.getD_eq_getElem?_getD]
    rcases h : tb.lines[n]? with _ | a
    · simp [defaultTextLine, BulletStyle.isNumbered]
    · simp only [Option.getD_some, Option.toList_some, List.countP_singleton]
      by_cases hb : (a.bullet_style).isNumbered = true
      · rw [if_pos hb, if_pos hb]; omega
      · rw [if_neg hb, if_neg hb]; omega

/-- C9: when the Numbered bullet style is applied to line `line_idx` of a
text box (the formatting dialog assigns
`Numbered(calculate_numbered_position(textbox, line_idx))`), the assigned
number equals 1 plus the count of lines at indices strictly less than
`line_idx` whose bullet style is Numbered, for every valid line index. -/
theorem numbered_position_spec (textbox : TextBox) (line_idx : Nat)
    (h : line_idx < textbox.lines.length) :
    numbered_style_for textbox line_idx =
      .Numbered
        (1 + ((textbox.lines.take line_idx).countP
          (fun l => (l.bullet_style).isNumbered))) := by
  rw [numbered_style_for, calculate_numbered_position_eq]

/-- C9 (witness): a box with lines `[Numbered, None, Numbered, Dash]`
assigns number 3 to a Numbered bullet on line 3. -/
theorem numbered_position_spec_witness :
    (3 < 4 ∧
      numbered_style_for
        { id := 1, title := "t", position := { x := 0, y := 0 }
          size := { x := 400, y := 250 }
          lines :=
            [{ defaultTextLine with bullet_style := .Numbered 1 },
             defaultTextLine,
             { defaultTextLine with bullet_style := .Numbered 2 },
             { defaultTextLine with bullet_style := .Dash }]
          font_size := 16, text_color := Color32.WHITE
          min_size := { x := 150, y := 80 }, is_dragging := false } 3 =
        .Numbered 3) := by
  constructor
  · decide
  · rw [numbered_position_spec _ 3 (by decide)]
    decide

/-! ## List helper lemmas -/

theorem listModify_length (f : α → α) (n : Nat) (l : List α) :
    (listModify f n l).length = l.length := by
  induction l generalizing n with
  | nil => cases n <;> rfl
  | cons a as ih =>
    cases n with
    | zero => rfl
    | succ m => simp only [listModify, List.length_cons, ih]

theorem listModify_get_self (f : α → α) (n : Nat) (l : List α)
    (h : n < l.length) (h' : n < (listModify f n l).length) :
    (listModify f n l).get ⟨n, h'⟩ = f (l.get ⟨n, h⟩) := by
  induction l generalizing n with
  | nil => exact absurd h (by simp)
  | cons a as ih =>
    cases n with
    | zero => rfl
    | succ m => exact ih m (by simpa using h) (by simpa [listModify] using h')

theorem listModify_get_ne (f : α → α) (n j : Nat) (l : List α)
    (hj : j < l.length) (hj' : j < (listModify f n l).length) (hne : j ≠ n) :
    (listModify f n l).get ⟨j, hj'⟩ = l.get ⟨j, hj⟩ := by
  induction l generalizing n j with
  | nil => exact absurd hj (by simp)
  | cons a as ih =>
    cases n with
    | zero =>
      cases j with
      | zero => exact absurd rfl hne
      | succ k => rfl
    | succ m =>
      cases j with
      | zero => rfl
      | succ k =>
        exact ih m k (by simpa using hj) (by simpa [listModify] using hj')
          (fun hkm => hne (by rw [hkm]))

theorem mem_listModify {f : α → α} {n : Nat} {l : List α} {b : α}
    (hb : b ∈ listModify f n l) : b ∈ l ∨ ∃ a ∈ l, b = f a := by
  induction l generalizing n with
  | nil => simp [listModify] at hb
  | cons a as ih =>
    cases n with
    | zero =>
      rcases List.mem_cons.mp hb with h | h
      · exact Or.inr ⟨a, List.mem_cons_self a as, h⟩
      · exact Or.inl (List.mem_cons_of_mem a h)
    | succ m =>
      rcases List.mem_cons.mp hb with h | h
      · exact Or.inl (h ▸ List.mem_cons_self a as)
      · rcases ih h with h' | ⟨c, hc, hbc⟩
        · exact Or.inl (List.mem_cons_of_mem a h')
        · exact Or.inr ⟨c, List.mem_cons_of_mem a hc, hbc⟩

theorem listModify_map (f : α → α) (g : α → β)
    (hpres : ∀ a, g (f a) = g a) (n : Nat) (l : List α) :
    (listModify f n l).map g = l.map g := by
  induction l generalizing n with
  | nil => cases n <;> rfl
  | cons a as ih =>
    cases n with
    | zero => simp [listModify, hpres]
    | succ m => simp [listModify, ih]

theorem mem_modifyFirst {p : α → Bool} {f : α → α} {l : List α} {b : α}
    (hb : b ∈ modifyFirst p f l) : b ∈ l ∨ ∃ a ∈ l, b = f a := by
  induction l with
  | nil => simp [modifyFirst] at hb
  | cons a as ih =>
    rw [modifyFirst] at hb
    by_cases hp : p a
    · rw [if_pos hp] at hb
      rcases List.mem_cons.mp hb with h | h
      · exact Or.inr ⟨a, List.mem_cons_self a as, h⟩
      · exact Or.inl (List.mem_cons_of_mem a h)
    · rw [if_neg hp] at hb
      rcases List.mem_cons.mp hb with h | h
      · exact Or.inl (h ▸ List.mem_cons_self a as)
      · rcases ih h with h' | ⟨c, hc, hbc⟩
        · exact Or.inl (List.mem_cons_of_mem a h')
        · exact Or.inr ⟨c, List.mem_cons_of_mem a hc, hbc⟩

theorem modifyFirst_map (p : α → Bool) (f : α → α) (g : α → β)
    (hpres : ∀ a, g (f a) = g a) (l : List α) :
    (modifyFirst p f l).map g = l.map g := by
  induction l with
  | nil => rfl
  | cons a as ih =>
    rw [modifyFirst]
    by_cases hp : p a
    · rw [if_pos hp]; simp [hpres]
    · rw [if_neg hp]; simp [ih]

theorem modifyFirst_eq_self {p : α → Bool} {f : α → α} {l : List α}
    (h : ∀ a ∈ l, ¬ p a = true) : modifyFirst p f l = l := by
  induction l with
  | nil => rfl
  | cons a as ih =>
    rw [modifyFirst, if_neg (h a (List.mem_cons_self a as)),
      ih (fun b hb => h b (List.mem_cons_of_mem a hb))]

theorem modifyFirst_decomp (p : α → Bool) (f : α → α) (l : List α)
    (h : ∃ a ∈ l, p a = true) :
    ∃ l₁ a l₂, l = l₁ ++ a :: l₂ ∧ p a = true ∧ (∀ b ∈ l₁, ¬ p b = true) ∧
      modifyFirst p f l = l₁ ++ f a :: l₂ := by
  induction l with
  | nil => simp at h
  | cons c cs ih =>
    by_cases hc : p c = true
    · exact ⟨[], c, cs, rfl, hc, by simp,
        by rw [modifyFirst, if_pos hc, List.nil_append]⟩
    · have h' : ∃ a ∈ cs, p a = true := by
        rcases h with ⟨a, ha, hpa⟩
        rcases List.mem_cons.mp ha with rfl | ha'
        · exact absurd hpa hc
        · exact ⟨a, ha', hpa⟩
      rcases ih h' with ⟨l₁, a, l₂, hl, hpa, hl₁, hmf⟩
      exact ⟨c :: l₁, a, l₂, by rw [List.cons_append, hl], hpa,
        fun b hb => by
          rcases List.mem_cons.mp hb with rfl | hb'
          · exact hc
          · exact hl₁ b hb',
        by rw [modifyFirst, if_neg hc, hmf, List.cons_append]⟩

theorem sublist_flatMap {l₁ l₂ : List α} (h : List.Sublist l₁ l₂) (f : α → List β) :
    List.Sublist (l₁.flatMap f) (l₂.flatMap f) := by
  induction h with
  | slnil => exact List.Sublist.refl _
  | cons a h ih =>
    rw [List.flatMap_cons]
    exact ih.trans (List.sublist_append_right _ _)
  | cons₂ a h ih =>
    rw [List.flatMap_cons, List.flatMap_cons]
    exact List.Sublist.append_left ih _

theorem flatMap_listModify_eq (g : α → α) (tIds : α → List β)
    (hg : ∀ a, tIds (g a) = tIds a) (n : Nat) (l : List α) :
    (listModify g n l).flatMap tIds = l.flatMap tIds := by
  induction l generalizing n with
  | nil => cases n <;> rfl
  | cons a as ih =>
    cases n with
    | zero => simp only [listModify, List.flatMap_cons, hg]
    | succ m => simp only [listModify, List.flatMap_cons, ih]

theorem flatMap_modifyFirst_eq (p : α → Bool) (g : α → α) (tIds : α → List β)
    (hg : ∀ a, tIds (g a) = tIds a) (l : List α) :
    (modifyFirst p g l).flatMap tIds = l.flatMap tIds := by
  induction l with
  | nil => rfl
  | cons a as ih =>
    rw [modifyFirst]
    by_cases hp : p a
    · rw [if_pos hp]
      simp only [List.flatMap_cons, hg]
    · rw [if_neg hp]
      simp only [List.flatMap_cons, ih]

theorem flatMap_listModify_sublist (g : α → α) (tIds : α → List β)
    (hg : ∀ a, List.Sublist (tIds (g a)) (tIds a)) (n : Nat) (l : List α) :
    List.Sublist ((listModify g n l).flatMap tIds) (l.flatMap tIds) := by
  induction l generalizing n with
  | nil => cases n <;> exact List.Sublist.refl _
  | cons a as ih =>
    cases n with
    | zero =>
      rw [listModify, List.flatMap_cons, List.flatMap_cons]
      exact List.Sublist.append (hg a) (List.Sublist.refl _)
    | succ m =>
      rw [listModify, List.flatMap_cons, List.flatMap_cons]
      exact List.Sublist.append_left (ih m) _

/-! ## add_task_to_project (claim C4) -/

/-- C4: `add_task_to_project(project_id, task_text)` appends exactly one
task — text the trimmed input, `completed = false`, id `next_task_id` —
to the tasks of the project whose id equals `project_id` iff such a
project exists and the text trims to non-empty, incrementing
`next_task_id` by one; otherwise the state is unchanged; in all cases all
other projects (and all other state fields) are unchanged.  Stated for
states whose project ids are pairwise distinct, so that "the project" is
well defined. -/
theorem add_task_spec (s : TodoApp) (project_id : Nat) (task_text : String)
    (hnd : (projectIds s).Nodup) :
    AddTaskPost s project_id task_text := by
  constructor
  · intro hcase
    rcases hcase with hno | htrim
    · rw [add_task_to_project, if_neg]
      simp only [List.any_eq_true, beq_iff_eq]
      exact fun ⟨p, hp, hpid⟩ => hno ⟨p, hp, hpid⟩
    · rw [add_task_to_project]
      by_cases hany : s.projects.any (fun p => p.id == project_id)
      · rw [if_pos hany, if_pos htrim]
      · rw [if_neg hany]
  · intro hex htrim
    have hany : s.projects.any (fun p => p.id == project_id) = true := by
      simp only [List.any_eq_true, beq_iff_eq]
      exact hex
    rcases modifyFirst_decomp
        (fun p => p.id == project_id)
        (fun p =>
          { p with tasks := p.tasks ++
              [{ id := s.next_task_id, text := task_text.trim
                 completed := false }] })
        s.projects
        (by simpa only [List.any_eq_true] using hany) with
      ⟨l₁, pr, l₂, hl, hpid, hl₁, hmf⟩
    have hpid' : pr.id = project_id := by simpa using hpid
    refine ⟨l₁, pr, l₂, hl, hpid', ?_, ?_, ?_⟩
    · intro q hq
      have := hl₁ q hq
      simpa using this
    · -- from Nodup: nothing in l₂ has the id of pr
      intro q hq hqid
      have hmap : (projectIds s) = l₁.map Project.id ++ pr.id :: l₂.map Project.id := by
        rw [projectIds, hl]
        simp
      rw [hmap] at hnd
      have h₂ := (List.nodup_append.mp hnd).2.1
      have := (List.nodup_cons.mp h₂).1
      exact this (by
        rw [hpid'] at *
        exact hqid ▸ List.mem_map_of_mem Project.id hq)
    · rw [add_task_to_project, if_pos hany, if_neg htrim, hmf]

/-- C4 (witness): adding task `" hi "` to project 1 of `oneProjectState`
appends the task `{id := 1, text := "hi", completed := false}`. -/
theorem add_task_spec_witness :
    (projectIds oneProjectState).Nodup ∧
      AddTaskPost oneProjectState 1 " hi " :=
  ⟨by decide, add_task_spec oneProjectState 1 " hi " (by decide)⟩

/-! ## Resizing (claim C7) -/

/-- C7: a resize drag with delta `d` sets the box's size to the
componentwise maximum of (old size + d) and `min_size`, so both resulting
dimensions are at least `min_size`; no other field of the box, no other
box, and nothing else in the state changes. -/
theorem resize_spec (s : TodoApp) (idx : Nat) (d : Vec2)
    (h : idx < s.notes_canvas.text_boxes.length) :
    ResizePost s idx d h := by
  have hlen : (resize_text_box s idx d).notes_canvas.text_boxes.length =
      s.notes_canvas.text_boxes.length := by
    simp [resize_text_box, listModify_length]
  have h' : idx < (resize_text_box s idx d).notes_canvas.text_boxes.length := by
    rw [hlen]; exact h
  have hget : (resize_text_box s idx d).notes_canvas.text_boxes.get ⟨idx, h'⟩ =
      { s.notes_canvas.text_boxes.get ⟨idx, h⟩ with
        size := (((s.notes_canvas.text_boxes.get ⟨idx, h⟩).size.add d).vmax
          (s.notes_canvas.text_boxes.get ⟨idx, h⟩).min_size) } :=
    listModify_get_self _ idx _ h h'
  refine ⟨h', hget, ?_, ?_, ?_, rfl, rfl, rfl⟩
  · rw [hget]
    exact le_max_right _ _
  · rw [hget]
    exact le_max_right _ _
  · intro j hj hne
    refine ⟨by rw [hlen]; exact hj, ?_⟩
    exact listModify_get_ne _ idx j _ hj _ hne

/-- C7 (witness): shrinking `oneBoxState`'s box by `(-500, -500)` clamps
its size to the minimum `(150, 80)`. -/
theorem resize_spec_witness :
    (0 < oneBoxState.notes_canvas.text_boxes.length) ∧
      ResizePost oneBoxState 0 { x := -500, y := -500 } (by decide) :=
  ⟨by decide, resize_spec oneBoxState 0 { x := -500, y := -500 } (by decide)⟩

/-! ## Panning (claim C8) -/

/-- C8: a middle-button pan by any delta translates `scene_rect` by
exactly that delta (both corners move by the delta, with no clamping),
and leaves every text box — position, size, title, lines — as well as
the projects untouched; the reset-view action restores `scene_rect` to
the rectangle with min `(0,0)` and size `(5000,5000)`, also leaving the
text boxes untouched. -/
theorem pan_and_reset_spec (s : TodoApp) (d : Vec2) :
    (pan_canvas s d).notes_canvas.scene_rect =
      s.notes_canvas.scene_rect.translate d ∧
    (pan_canvas s d).notes_canvas.scene_rect.min =
      s.notes_canvas.scene_rect.min.addVec d ∧
    (pan_canvas s d).notes_canvas.scene_rect.max =
      s.notes_canvas.scene_rect.max.addVec d ∧
    (pan_canvas s d).notes_canvas.text_boxes = s.notes_canvas.text_boxes ∧
    (pan_canvas s d).notes_canvas.next_textbox_id =
      s.notes_canvas.next_textbox_id ∧
    (pan_canvas s d).projects = s.projects ∧
    (reset_view s).notes_canvas.scene_rect =
      Rect.from_min_size { x := 0, y := 0 } { x := 5000, y := 5000 } ∧
    (reset_view s).notes_canvas.text_boxes = s.notes_canvas.text_boxes :=
  ⟨rfl, rfl, rfl, rfl, rfl, rfl, rfl, rfl⟩

/-! ## ID freshness machinery (claim C5) -/

theorem nodup_append_singleton {l : List α} {n : α} (hnd : l.Nodup)
    (hn : n ∉ l) : (l ++ [n]).Nodup := by
  rw [List.nodup_append]
  refine ⟨hnd, List.nodup_singleton n, ?_⟩
  intro x hx hx'
  rw [List.mem_singleton] at hx'
  exact hn (hx' ▸ hx)

theorem nodup_insert_middle {xs ys zs : List α} {n : α}
    (hnd : (xs ++ (ys ++ zs)).Nodup) (hn : n ∉ xs ++ (ys ++ zs)) :
    (xs ++ ((ys ++ [n]) ++ zs)).Nodup := by
  have he : xs ++ ((ys ++ [n]) ++ zs) = (xs ++ ys) ++ n :: zs := by simp
  rw [he]
  have hp : List.Perm ((xs ++ ys) ++ n :: zs) (n :: ((xs ++ ys) ++ zs)) :=
    List.perm_middle
  rw [hp.nodup_iff, List.nodup_cons]
  constructor
  · simpa using hn
  · simpa using hnd

theorem IdPair.of_eq {l l' : List Nat} {n n' : Nat} (h : IdPair l n)
    (hl : l' = l) (hn : n' = n) : IdPair l' n' := hl ▸ hn ▸ h

theorem IdPair.of_sublist {l l' : List Nat} {n n' : Nat} (h : IdPair l n)
    (hl : List.Sublist l' l) (hn : n ≤ n') : IdPair l' n' :=
  ⟨fun x hx => Nat.lt_of_lt_of_le (h.1 x (hl.subset hx)) hn, h.2.sublist hl⟩

theorem IdPair.snoc {l : List Nat} {n : Nat} (h : IdPair l n) :
    IdPair (l ++ [n]) (n + 1) := by
  refine ⟨?_, ?_⟩
  · intro x hx
    rcases List.mem_append.mp hx with hx | hx
    · exact Nat.lt_succ_of_lt (h.1 x hx)
    · rw [List.mem_singleton.mp hx]
      exact Nat.lt_succ_self _
  · exact nodup_append_singleton h.2
      (fun hmem => Nat.lt_irrefl n (h.1 n hmem))

theorem IdPair.insert_middle {xs ys zs : List Nat} {n : Nat}
    (h : IdPair (xs ++ (ys ++ zs)) n) :
    IdPair (xs ++ ((ys ++ [n]) ++ zs)) (n + 1) := by
  refine ⟨?_, ?_⟩
  · intro x hx
    simp only [List.mem_append, List.mem_singleton] at hx
    rcases hx with hx | (hx | rfl) | hx
    · exact Nat.lt_succ_of_lt (h.1 x (by simp [hx]))
    · exact Nat.lt_succ_of_lt (h.1 x (by simp [hx]))
    · exact Nat.lt_succ_self _
    · exact Nat.lt_succ_of_lt (h.1 x (by simp [hx]))
  · exact nodup_insert_middle h.2
      (fun hmem => Nat.lt_irrefl n (h.1 n hmem))

/-- Lemmas below: `add_project` and `add_task_to_project` leave the notes canvas
untouched. -/
theorem add_project_notes (s : TodoApp) :
    (add_project s).notes_canvas = s.notes_canvas := by
  rw [add_project]; split <;> rfl

theorem add_task_notes (s : TodoApp) (pid : Nat) (txt : String) :
    (add_task_to_project s pid txt).notes_canvas = s.notes_canvas := by
  rw [add_task_to_project]
  split
  · split <;> rfl
  · rfl

theorem remove_project_notes (s : TodoApp) (idx : Nat) :
    (remove_project s idx).notes_canvas = s.notes_canvas := by
  rw [remove_project]; split <;> rfl

/-- The invariant holds in the startup default state. -/
theorem idInv_default : IdInv TodoApp.default := by
  refine ⟨⟨?_, ?_⟩, ⟨?_, ?_⟩, ⟨?_, ?_⟩⟩ <;>
    simp [projectIds, allTaskIds, boxIds, TodoApp.default, NotesCanvas.default]

/-- One user operation preserves the ID freshness invariant. -/
theorem idInv_step (op : Op) (s : TodoApp) (hs : IdInv s) :
    IdInv (applyOp op s) := by
  obtain ⟨hproj, htask, hbox⟩ := hs
  cases op with
  | addProject name =>
    rw [applyOp, add_project]
    split
    · exact ⟨hproj, htask, hbox⟩
    · refine ⟨?_, ?_, hbox⟩
      · refine hproj.snoc.of_eq ?_ rfl
        dsimp only [projectIds]
        simp
      · refine htask.of_eq ?_ rfl
        dsimp only [allTaskIds]
        simp [taskIdsOf]
  | addTask pid txt =>
    rw [applyOp, add_task_to_project]
    split
    case isFalse => exact ⟨hproj, htask, hbox⟩
    case isTrue hany =>
      split
      case isTrue => exact ⟨hproj, htask, hbox⟩
      case isFalse htrim =>
        refine ⟨?_, ?_, hbox⟩
        · refine hproj.of_eq ?_ rfl
          dsimp only [projectIds]
          refine modifyFirst_map _ _ _ (fun p => ?_) _
          rfl
        · dsimp only [allTaskIds]
          rcases modifyFirst_decomp
              (fun p => p.id == pid)
              (fun p =>
                { p with tasks := p.tasks ++
                    [{ id := s.next_task_id, text := txt.trim
                       completed := false }] })
              s.projects
              (by simpa only [List.any_eq_true] using hany) with
            ⟨l₁, pr, l₂, hl, hpid, hl₁, hmf⟩
          rw [hmf, List.flatMap_append, List.flatMap_cons]
          have hg : taskIdsOf
              { pr with tasks := pr.tasks ++
                  [{ id := s.next_task_id, text := txt.trim
                     completed := false }] } =
              taskIdsOf pr ++ [s.next_task_id] := by
            dsimp only [taskIdsOf]
            simp
          rw [hg]
          refine IdPair.insert_middle ?_
          refine htask.of_eq ?_ rfl
          dsimp only [allTaskIds]
          rw [hl, List.flatMap_append, List.flatMap_cons]
  | removeProject idx =>
    rw [applyOp, remove_project]
    split
    case h_2 => exact ⟨hproj, htask, hbox⟩
    case h_1 p hp =>
      refine ⟨?_, ?_, hbox⟩
      · refine hproj.of_sublist ?_ (Nat.le_refl _)
        dsimp only [projectIds]
        exact (List.eraseIdx_sublist s.projects idx).map Project.id
      · refine htask.of_sublist ?_ (Nat.le_refl _)
        dsimp only [allTaskIds]
        exact sublist_flatMap (List.eraseIdx_sublist s.projects idx) taskIdsOf
  | removeTask pidx tidx =>
    refine ⟨?_, ?_, hbox⟩
    · refine hproj.of_eq ?_ rfl
      dsimp only [projectIds, applyOp, remove_task]
      refine listModify_map _ _ (fun p => ?_) _ _
      rfl
    · refine htask.of_sublist ?_ (Nat.le_refl _)
      dsimp only [allTaskIds, applyOp, remove_task]
      refine flatMap_listModify_sublist _ _ (fun p => ?_) _ _
      exact (List.eraseIdx_sublist p.tasks tidx).map Task.id
  | setTaskCompleted pidx tidx b =>
    refine ⟨?_, ?_, hbox⟩
    · refine hproj.of_eq ?_ rfl
      dsimp only [projectIds, applyOp, set_task_completed]
      refine listModify_map _ _ (fun p => ?_) _ _
      rfl
    · refine htask.of_eq ?_ rfl
      dsimp only [allTaskIds, applyOp, set_task_completed]
      refine flatMap_listModify_eq _ _ (fun p => ?_) _ _
      dsimp only [taskIdsOf]
      refine listModify_map _ _ (fun t => ?_) _ _
      rfl
  | renameProject pid txt =>
    refine ⟨?_, ?_, hbox⟩
    · refine hproj.of_eq ?_ rfl
      dsimp only [projectIds, applyOp, rename_project]
      refine modifyFirst_map _ _ _ (fun p => ?_) _
      split <;> rfl
    · refine htask.of_eq ?_ rfl
      dsimp only [allTaskIds, applyOp, rename_project]
      refine flatMap_modifyFirst_eq _ _ _ (fun p => ?_) _
      split <;> rfl
  | renameTask pid tid txt =>
    refine ⟨?_, ?_, hbox⟩
    · refine hproj.of_eq ?_ rfl
      dsimp only [projectIds, applyOp, rename_task]
      refine modifyFirst_map _ _ _ (fun p => ?_) _
      rfl
    · refine htask.of_eq ?_ rfl
      dsimp only [allTaskIds, applyOp, rename_task]
      refine flatMap_modifyFirst_eq _ _ _ (fun p => ?_) _
      dsimp only [taskIdsOf]
      refine modifyFirst_map _ _ _ (fun t => ?_) _
      split <;> rfl
  | createTextBox pos =>
    refine ⟨hproj, htask, ?_⟩
    refine hbox.snoc.of_eq ?_ rfl
    dsimp only [boxIds, applyOp, create_text_box_at]
    simp
  | deleteTextBox tid =>
    refine ⟨hproj, htask, ?_⟩
    refine hbox.of_sublist ?_ (Nat.le_refl _)
    dsimp only [boxIds, applyOp, delete_text_box]
    exact (List.filter_sublist _).map TextBox.id
  | addLine tid =>
    refine ⟨hproj, htask, ?_⟩
    refine hbox.of_eq ?_ rfl
    dsimp only [boxIds, applyOp, add_line]
    refine modifyFirst_map _ _ _ (fun tb => ?_) _
    rfl
  | deleteLine tid li =>
    refine ⟨hproj, htask, ?_⟩
    refine hbox.of_eq ?_ rfl
    dsimp only [boxIds, applyOp, delete_line]
    refine modifyFirst_map _ _ _ (fun tb => ?_) _
    split <;> rfl
  | setLineText tid li txt =>
    refine ⟨hproj, htask, ?_⟩
    refine hbox.of_eq ?_ rfl
    dsimp only [boxIds, applyOp, save_line_text]
    refine modifyFirst_map _ _ _ (fun tb => ?_) _
    rfl
  | formatLine tid li st bc fs tc =>
    refine ⟨hproj, htask, ?_⟩
    refine hbox.of_eq ?_ rfl
    dsimp only [boxIds, applyOp, format_line]
    refine modifyFirst_map _ _ _ (fun tb => ?_) _
    rfl
  | saveTitle tid txt =>
    refine ⟨hproj, htask, ?_⟩
    refine hbox.of_eq ?_ rfl
    dsimp only [boxIds, applyOp, save_title]
    refine modifyFirst_map _ _ _ (fun tb => ?_) _
    split <;> rfl
  | moveBox idx d =>
    refine ⟨hproj, htask, ?_⟩
    refine hbox.of_eq ?_ rfl
    dsimp only [boxIds, applyOp, move_text_box]
    refine listModify_map _ _ (fun tb => ?_) _ _
    rfl
  | resizeBox idx d =>
    refine ⟨hproj, htask, ?_⟩
    refine hbox.of_eq ?_ rfl
    dsimp only [boxIds, applyOp, resize_text_box]
    refine listModify_map _ _ (fun tb => ?_) _ _
    rfl
  | pan d => exact ⟨hproj, htask, hbox⟩
  | resetView => exact ⟨hproj, htask, hbox⟩


/-- No operation ever decreases an id counter, so a deleted id — strictly
below the counter at deletion time — can never be handed out again. -/
theorem counters_mono (op : Op) (s : TodoApp) :
    s.next_project_id ≤ (applyOp op s).next_project_id ∧
    s.next_task_id ≤ (applyOp op s).next_task_id ∧
    s.notes_canvas.next_textbox_id ≤ (applyOp op s).notes_canvas.next_textbox_id := by
  cases op with
  | addProject name =>
    rw [applyOp, add_project]
    split
    · exact ⟨Nat.le_refl _, Nat.le_refl _, Nat.le_refl _⟩
    · exact ⟨Nat.le_succ _, Nat.le_refl _, Nat.le_refl _⟩
  | addTask pid txt =>
    rw [applyOp, add_task_to_project]
    split
    · split
      · exact ⟨Nat.le_refl _, Nat.le_refl _, Nat.le_refl _⟩
      · exact ⟨Nat.le_refl _, Nat.le_succ _, Nat.le_refl _⟩
    · exact ⟨Nat.le_refl _, Nat.le_refl _, Nat.le_refl _⟩
  | removeProject idx =>
    rw [applyOp, remove_project]
    split <;> exact ⟨Nat.le_refl _, Nat.le_refl _, Nat.le_refl _⟩
  | createTextBox pos =>
    exact ⟨Nat.le_refl _, Nat.le_refl _, Nat.le_succ _⟩
  | removeTask pidx tidx => exact ⟨Nat.le_refl _, Nat.le_refl _, Nat.le_refl _⟩
  | setTaskCompleted pidx tidx b =>
    exact ⟨Nat.le_refl _, Nat.le_refl _, Nat.le_refl _⟩
  | renameProject pid txt => exact ⟨Nat.le_refl _, Nat.le_refl _, Nat.le_refl _⟩
  | renameTask pid tid txt => exact ⟨Nat.le_refl _, Nat.le_refl _, Nat.le_refl _⟩
  | deleteTextBox tid => exact ⟨Nat.le_refl _, Nat.le_refl _, Nat.le_refl _⟩
  | addLine tid => exact ⟨Nat.le_refl _, Nat.le_refl _, Nat.le_refl _⟩
  | deleteLine tid li => exact ⟨Nat.le_refl _, Nat.le_refl _, Nat.le_refl _⟩
  | setLineText tid li txt => exact ⟨Nat.le_refl _, Nat.le_refl _, Nat.le_refl _⟩
  | formatLine tid li st bc fs tc =>
    exact ⟨Nat.le_refl _, Nat.le_refl _, Nat.le_refl _⟩
  | saveTitle tid txt => exact ⟨Nat.le_refl _, Nat.le_refl _, Nat.le_refl _⟩
  | moveBox idx d => exact ⟨Nat.le_refl _, Nat.le_refl _, Nat.le_refl _⟩
  | resizeBox idx d => exact ⟨Nat.le_refl _, Nat.le_refl _, Nat.le_refl _⟩
  | pan d => exact ⟨Nat.le_refl _, Nat.le_refl _, Nat.le_refl _⟩
  | resetView => exact ⟨Nat.le_refl _, Nat.le_refl _, Nat.le_refl _⟩

/-- C5: in every state reachable from the default state by user
operations, `next_project_id` is strictly greater than every project id,
`next_task_id` strictly greater than every task id, `next_textbox_id`
strictly greater than every text box id, and all ids of each kind are
pairwise distinct (task ids across all projects); moreover no operation
ever decreases a counter, so a deleted entity's id — strictly below the
counter when it was live — is never handed out again. -/
theorem id_freshness :
    (∀ s, Reachable s → IdInv s) ∧
    (∀ (op : Op) (s : TodoApp),
      s.next_project_id ≤ (applyOp op s).next_project_id ∧
      s.next_task_id ≤ (applyOp op s).next_task_id ∧
      s.notes_canvas.next_textbox_id ≤
        (applyOp op s).notes_canvas.next_textbox_id) := by
  constructor
  · intro s h
    induction h with
    | base => exact idInv_default
    | step op _ ih => exact idInv_step op _ ih
  · exact counters_mono

/-- C5 (witness): the invariant in a concrete reachable state — default,
then a project, a task, and a text box are created. -/
theorem id_freshness_witness :
    IdInv (applyOp (.createTextBox { x := 7, y := 8 })
      (applyOp (.addTask 1 "buy milk")
        (applyOp (.addProject "home") TodoApp.default))) :=
  id_freshness.1 _
    (Reachable.step _ (Reachable.step _ (Reachable.step _ Reachable.base)))

/-! ## Lines nonempty (claim C6) -/

/-- The lines-nonempty invariant holds at startup. -/
theorem linesNonempty_default : LinesNonempty TodoApp.default := by
  intro tb htb
  simp [TodoApp.default, NotesCanvas.default] at htb

/-- One user operation preserves the lines-nonempty invariant. -/
theorem linesNonempty_step (op : Op) (s : TodoApp) (hs : LinesNonempty s) :
    LinesNonempty (applyOp op s) := by
  cases op with
  | addProject name =>
    intro tb htb
    rw [applyOp, add_project_notes] at htb
    exact hs tb htb
  | addTask pid txt =>
    intro tb htb
    rw [applyOp, add_task_notes] at htb
    exact hs tb htb
  | removeProject idx =>
    intro tb htb
    rw [applyOp, remove_project_notes] at htb
    exact hs tb htb
  | removeTask pidx tidx => exact fun tb htb => hs tb htb
  | setTaskCompleted pidx tidx b => exact fun tb htb => hs tb htb
  | renameProject pid txt => exact fun tb htb => hs tb htb
  | renameTask pid tid txt => exact fun tb htb => hs tb htb
  | createTextBox pos =>
    intro tb htb
    rcases List.mem_append.mp htb with h | h
    · exact hs tb h
    · rw [List.mem_singleton.mp h]
      simp
  | deleteTextBox tid =>
    intro tb htb
    exact hs tb (List.mem_of_mem_filter htb)
  | addLine tid =>
    intro tb htb
    rcases mem_modifyFirst htb with h | ⟨a, ha, rfl⟩
    · exact hs tb h
    · simp
  | deleteLine tid li =>
    intro tb htb
    rcases mem_modifyFirst htb with h | ⟨a, ha, rfl⟩
    · exact hs tb h
    · show (if 1 < a.lines.length then
          { a with lines := a.lines.eraseIdx li } else a).lines ≠ []
      split
      case isTrue hlen =>
        show a.lines.eraseIdx li ≠ []
        have : 0 < (a.lines.eraseIdx li).length := by
          rw [List.length_eraseIdx]
          split <;> omega
        exact List.ne_nil_of_length_pos this
      case isFalse => exact hs a ha
  | setLineText tid li txt =>
    intro tb htb
    rcases mem_modifyFirst htb with h | ⟨a, ha, rfl⟩
    · exact hs tb h
    · show listModify (fun l => { l with text := txt }) li a.lines ≠ []
      have : 0 < (listModify (fun l => { l with text := txt }) li a.lines).length := by
        rw [listModify_length]
        exact List.length_pos.mpr (hs a ha)
      exact List.ne_nil_of_length_pos this
  | formatLine tid li st bc fs tc =>
    intro tb htb
    rcases mem_modifyFirst htb with h | ⟨a, ha, rfl⟩
    · exact hs tb h
    · show listModify _ li a.lines ≠ []
      have : 0 < (listModify
          (fun l => { l with bullet_style := st, bullet_color := bc })
          li a.lines).length := by
        rw [listModify_length]
        exact List.length_pos.mpr (hs a ha)
      exact List.ne_nil_of_length_pos this
  | saveTitle tid txt =>
    intro tb htb
    rcases mem_modifyFirst htb with h | ⟨a, ha, rfl⟩
    · exact hs tb h
    · show (if txt.trim = "" then a else { a with title := txt }).lines ≠ []
      split <;> exact hs a ha
  | moveBox idx d =>
    intro tb htb
    rcases mem_listModify htb with h | ⟨a, ha, rfl⟩
    · exact hs tb h
    · exact hs a ha
  | resizeBox idx d =>
    intro tb htb
    rcases mem_listModify htb with h | ⟨a, ha, rfl⟩
    · exact hs tb h
    · exact hs a ha
  | pan d => exact fun tb htb => hs tb htb
  | resetView => exact fun tb htb => hs tb htb

/-- C6: a newly created text box has exactly one (empty, unbulleted)
line, the add-line action appends a line, and the delete-line action
removes a line only when the box has strictly more than one — so in every
state reachable from the default state no text box has an empty lines
list. -/
theorem text_box_lines_nonempty (s : TodoApp) (h : Reachable s) :
    LinesNonempty s := by
  induction h with
  | base => exact linesNonempty_default
  | step op _ ih => exact linesNonempty_step op _ ih

/-- C6 (witness): the invariant in a concrete reachable state — a box is
created, a line added, and line 0 deleted. -/
theorem text_box_lines_nonempty_witness :
    LinesNonempty (applyOp (.deleteLine 1 0)
      (applyOp (.addLine 1)
        (applyOp (.createTextBox { x := 1, y := 2 }) TodoApp.default))) :=
  text_box_lines_nonempty _
    (Reachable.step _ (Reachable.step _ (Reachable.step _ Reachable.base)))

/-! ## Text box layout (claim C10) -/

/-- C10 (counterexample): the layout geometry the code computes for a text
box — the frame rectangle it is placed in and the resize-handle rectangle
— is identical for `oneLineBox` and `threeLineBox`, which differ in their
content (one line vs three lines) but share position and size.  The
`TextBox` struct has no layout-mode field and `render_text_boxes` always
derives the box's rectangle (height included) from the stored `size`
alone, so there is no auto-height mode in which the height follows the
content. -/
theorem layout_ignores_content :
    textBoxFrameRect { x := 0, y := 0 } oneLineBox =
      textBoxFrameRect { x := 0, y := 0 } threeLineBox ∧
    resizeHandleRect { x := 0, y := 0 } oneLineBox =
      resizeHandleRect { x := 0, y := 0 } threeLineBox ∧
    oneLineBox.lines ≠ threeLineBox.lines := by
  refine ⟨rfl, rfl, by decide⟩

/-- C10 (amended): text boxes have a single, manual layout mode — the
frame rectangle and the resize-handle rectangle are computed from the
stored `position` and `size` alone (two boxes agreeing on those agree on
their layout), and the frame's height always equals the stored `size.y`,
never following the content; no per-box auto-height mode exists. -/
theorem single_layout_mode (pan : Vec2) (b1 b2 : TextBox)
    (hpos : b1.position = b2.position) (hsize : b1.size = b2.size) :
    textBoxFrameRect pan b1 = textBoxFrameRect pan b2 ∧
    resizeHandleRect pan b1 = resizeHandleRect pan b2 ∧
    (textBoxFrameRect pan b1).max.y - (textBoxFrameRect pan b1).min.y =
      b1.size.y := by
  refine ⟨?_, ?_, ?_⟩
  · simp only [textBoxFrameRect, hpos, hsize]
  · simp only [resizeHandleRect, textBoxFrameRect, hpos, hsize]
  · simp only [textBoxFrameRect, Rect.from_min_size, Pos2.addVec]
    ring

/-- C10 (witness): the amended statement at the two concrete boxes. -/
theorem single_layout_mode_witness :
    (oneLineBox.position = threeLineBox.position ∧
      oneLineBox.size = threeLineBox.size) ∧
    (textBoxFrameRect { x := 0, y := 0 } oneLineBox =
        textBoxFrameRect { x := 0, y := 0 } threeLineBox ∧
      resizeHandleRect { x := 0, y := 0 } oneLineBox =
        resizeHandleRect { x := 0, y := 0 } threeLineBox ∧
      (textBoxFrameRect { x := 0, y := 0 } oneLineBox).max.y -
        (textBoxFrameRect { x := 0, y := 0 } oneLineBox).min.y =
          oneLineBox.size.y) :=
  ⟨⟨rfl, rfl⟩,
    single_layout_mode { x := 0, y := 0 } oneLineBox threeLineBox rfl rfl⟩

end TodoMain
